import Mathlib

/-!
Shallow embedding of the LayoutLab placement engine
(`src/layoutlab/placer.py`): collision-aware random symbol placement on a
fixed-size sheet.  Millimetre quantities are modelled as exact rationals;
Python's seeded global random stream is modelled as an explicit
deterministic generator state threaded through every draw, so that draw
order and stream consumption are visible in the embedding.
-/

namespace LayoutLab

/-- A parameter value in an instance-parameter dictionary: Python stores
floats and strings in `dict[str, Any]`. -/
inductive PValue where
  | num (q : ℚ)
  | str (s : String)
deriving DecidableEq

/-- Embedding of the `Symbol` dataclass: a catalog entry with name, filename, dimensions in
mm and static parameters. -/
structure Symbol where
  name : String
  filename : String
  width_mm : ℚ
  height_mm : ℚ
  params : List (String × PValue)
deriving DecidableEq

/-- Embedding of the `PlacedSymbol` dataclass: one instance of a symbol placed on the
drawing, with centre position in mm, rotation in degrees and instance
parameters. -/
structure PlacedSymbol where
  symbol : Symbol
  x : ℚ
  y : ℚ
  rotation : ℚ
  instance_params : List (String × PValue)
deriving DecidableEq

namespace SheetDimensions

/-- Embedding of `SheetDimensions.SIZES`: the fixed dict of sheet sizes in mm
(dicts are modelled as association lists in insertion order). -/
def SIZES : List (String × ℚ × ℚ) :=
  [("A4", 210, 297), ("A3", 297, 420), ("US-Letter", 2159/10, 1397/5)]

/-- Embedding of `SheetDimensions.get_size`: look the name up in `SIZES`; an unknown
name raises `ValueError(f"Unsupported sheet size: ...")`, modelled as an
`Except.error` carrying the message. -/
def get_size (sheet_size : String) : Except String (ℚ × ℚ) :=
  match SIZES.lookup sheet_size with
  | some wh => .ok wh
  | none => .error ("Unsupported sheet size: " ++ sheet_size)

end SheetDimensions

namespace CollisionDetector

/-- Embedding of `CollisionDetector.get_bounding_box`: axis-aligned box
`(x_min, y_min, x_max, y_max)` centred at the placed position with half
the symbol's nominal extents; rotation is intentionally ignored. -/
def get_bounding_box (placed_symbol : PlacedSymbol) : ℚ × ℚ × ℚ × ℚ :=
  let half_width := placed_symbol.symbol.width_mm / 2
  let half_height := placed_symbol.symbol.height_mm / 2
  (placed_symbol.x - half_width, placed_symbol.y - half_height,
   placed_symbol.x + half_width, placed_symbol.y + half_height)

/-- Embedding of `CollisionDetector.check_collision`: expand the first symbol's box by
`min_spacing` on all four sides, then report overlap with the second box
using the strict interval-separation test
`not (x1_max < x2_min or x2_max < x1_min or y1_max < y2_min or y2_max < y1_min)`. -/
def check_collision (symbol1 symbol2 : PlacedSymbol) (min_spacing : ℚ) : Bool :=
  match get_bounding_box symbol1, get_bounding_box symbol2 with
  | (b1_x_min, b1_y_min, b1_x_max, b1_y_max), (x2_min, y2_min, x2_max, y2_max) =>
    let x1_min := b1_x_min - min_spacing
    let y1_min := b1_y_min - min_spacing
    let x1_max := b1_x_max + min_spacing
    let y1_max := b1_y_max + min_spacing
    decide (¬ (x1_max < x2_min ∨ x2_max < x1_min ∨ y1_max < y2_min ∨ y2_max < y1_min))

end CollisionDetector

/-- State of Python's seeded global Mersenne Twister, modelled as an
abstract deterministic stream: a 64-bit linear congruential generator.
The claims use the determinism and the draw order of the stream, never
its distribution, so the concrete update function is a model. -/
abbrev Rng := Nat

/-- One step of the modelled generator. -/
def Rng.next (s : Rng) : Rng :=
  (6364136223846793005 * s + 1442695040888963407) % (2 ^ 64)

/-- Model of `random.seed(seed)`: reset the stream deterministically from the seed. -/
def Rng.seeded (seed : Nat) : Rng := seed

/-- Python `random.random()` produces `getrandbits(53) / 2**53`; the modelled
draw takes the generator output modulo `2^53` over the same denominator,
so every draw lies in `[0, 1)`. -/
def RAND_DENOM : Nat := 2 ^ 53

/-- Model of `random.random()`: a rational in `[0, 1)` plus the advanced state. -/
def randFloat (s : Rng) : ℚ × Rng :=
  (((Rng.next s % RAND_DENOM : Nat) : ℚ) / (RAND_DENOM : ℚ), Rng.next s)

/-- Model of `random.uniform(a, b)`: `a + (b - a) * random()`.  Note Python does
not require `a <= b`; a reversed interval silently yields values in
`(b, a]`. -/
def uniform (a b : ℚ) (s : Rng) : ℚ × Rng :=
  (a + (b - a) * (randFloat s).1, (randFloat s).2)

/-- Model of `random._randbelow(n)`: an index below `n` from one stream step. -/
def randbelow (n : Nat) (s : Rng) : Nat × Rng :=
  (Rng.next s % n, Rng.next s)

/-- Model of `random.choice` on a list known to be non-empty (head plus tail). -/
def choice1 {α : Type} (a : α) (rest : List α) (s : Rng) : α × Rng :=
  let kr := randbelow (rest.length + 1) s
  ((a :: rest).getD kr.1 a, kr.2)

/-- Model of `random.choice(seq)`: uniform element of `seq`; an empty sequence
raises `IndexError("Cannot choose from an empty sequence")`, modelled as
an `Except.error` carrying the message. -/
def choice {α : Type} (seq : List α) (s : Rng) : Except String (α × Rng) :=
  match seq with
  | [] => .error "Cannot choose from an empty sequence"
  | a :: rest => .ok (choice1 a rest s)

/-- Python `round(x, ndigits)` modelled as rounding to the nearest
multiple of `10 ^ (-ndigits)` (the float ties-to-even detail is
abstracted; no claim depends on tie values). -/
def roundTo (x : ℚ) (ndigits : Nat) : ℚ :=
  ((round (x * 10 ^ ndigits) : ℤ) : ℚ) / 10 ^ ndigits

/-- The f-string conversion `f"{x:.3f}"` on a positive value: three
digits after the decimal point. -/
def fmtFixed3 (x : ℚ) : String :=
  let n : ℤ := round (x * 1000)
  let whole := n / 1000
  let frac := (n % 1000).toNat
  toString whole ++ "." ++
    (if frac < 10 then "00" else if frac < 100 then "0" else "") ++ toString frac

namespace SymbolParameterGenerator

/-- The `"gdt_flatness"` template: `tolerance = round(uniform(0.01, 0.5), 3)`
then `datum = choice(["A", "B", "C", "-"])`, drawn in dict order. -/
def gdt_flatness_template (s : Rng) : List (String × PValue) × Rng :=
  let tr := uniform (1/100) (1/2) s
  let dr := choice1 "A" ["B", "C", "-"] tr.2
  ([("tolerance", .num (roundTo tr.1 3)), ("datum", .str dr.1)], dr.2)

/-- The `"surface_finish"` template: `roughness` drawn from the fixed
roughness grades, then `process` from the three process names. -/
def surface_finish_template (s : Rng) : List (String × PValue) × Rng :=
  let rr := choice1 (4/5 : ℚ) [8/5, 16/5, 63/10, 25/2] s
  let pr := choice1 "machined" ["cast", "forged"] rr.2
  ([("roughness", .num rr.1), ("process", .str pr.1)], pr.2)

/-- The `"thread_callout"` template: `size`, `pitch` and `class` drawn in
dict order from their fixed choice lists. -/
def thread_callout_template (s : Rng) : List (String × PValue) × Rng :=
  let sr := choice1 "M6" ["M8", "M10", "M12", "1/4-20", "3/8-16"] s
  let pr := choice1 (1 : ℚ) [5/4, 3/2, 2] sr.2
  let cr := choice1 "6H" ["6g", "4H6H"] pr.2
  ([("size", .str sr.1), ("pitch", .num pr.1), ("class", .str cr.1)], cr.2)

/-- The `"diameter"` template: `value = round(uniform(5.0, 50.0), 1)`,
then `tolerance` formatted as plus-slash-minus from two further
`uniform(0.01, 0.1)` draws rendered with three decimals, evaluated left
to right. -/
def diameter_template (s : Rng) : List (String × PValue) × Rng :=
  let vr := uniform 5 50 s
  let t1 := uniform (1/100) (1/10) vr.2
  let t2 := uniform (1/100) (1/10) t1.2
  ([("value", .num (roundTo vr.1 1)),
    ("tolerance", .str ("+" ++ fmtFixed3 t1.1 ++ "/" ++ "-" ++ fmtFixed3 t2.1))], t2.2)

/-- Whether `text` starts with `pattern` (character lists). -/
def starts_with : List Char → List Char → Bool
  | [], _ => true
  | _ :: _, [] => false
  | p :: ps, c :: cs => p == c && starts_with ps cs

/-- Whether `pattern` occurs as a contiguous substring of `text`. -/
def contains_sub (pattern : List Char) : List Char → Bool
  | [] => pattern.isEmpty
  | c :: rest => starts_with pattern (c :: rest) || contains_sub pattern rest

/-- Python `template_key in symbol_name.lower()`: Python substring containment
on the lowercased name (the names involved are ASCII). -/
def name_matches (template_key symbol_name : String) : Bool :=
  contains_sub template_key.data (symbol_name.data.map Char.toLower)

/-- Embedding of `SymbolParameterGenerator.generate_params`: walk
`PARAMETER_TEMPLATES` in dict order, use the first template whose key is
a substring of the lowercased symbol name, and default to an empty
parameter set. -/
def generate_params (symbol_name : String) (s : Rng) : List (String × PValue) × Rng :=
  if name_matches "gdt_flatness" symbol_name then gdt_flatness_template s
  else if name_matches "surface_finish" symbol_name then surface_finish_template s
  else if name_matches "thread_callout" symbol_name then thread_callout_template s
  else if name_matches "diameter" symbol_name then diameter_template s
  else ([], s)

end SymbolParameterGenerator

/-- Embedding of `SymbolPlacer`: holds the symbol catalog `self.symbols`, a dict from
name to `Symbol`, modelled as an association list in insertion order
(dict keys are unique by construction). -/
structure SymbolPlacer where
  symbols : List (String × Symbol)

/-- Embedding of `SymbolPlacer._create_mock_symbols`: the mock catalog installed when
no manifest is available.  Note `radius_symbol` is created with height
`.0`, i.e. zero. -/
def mock_symbols : List (String × Symbol) :=
  [("gdt_flatness", ⟨"gdt_flatness", "gdt_flatness.svg", 8, 4, []⟩),
   ("gdt_parallelism", ⟨"gdt_parallelism", "gdt_parallelism.svg", 8, 4, []⟩),
   ("surface_finish_triangle",
     ⟨"surface_finish_triangle", "surface_finish_triangle.svg", 3, 3, []⟩),
   ("thread_callout_m6", ⟨"thread_callout_m6", "thread_callout_m6.svg", 12, 3, []⟩),
   ("diameter_symbol", ⟨"diameter_symbol", "diameter_symbol.svg", 4, 4, []⟩),
   ("radius_symbol", ⟨"radius_symbol", "radius_symbol.svg", 4, 0, []⟩),
   ("weld_symbol", ⟨"weld_symbol", "weld_symbol.svg", 6, 6, []⟩)]

/-- The 10 mm margin fixed inside `place_symbols_randomly`. -/
def MARGIN : ℚ := 10

/-- One iteration's candidate construction, steps (b)-(f) of the loop
body: draw a symbol uniformly from the catalog (`random.choice` over the
dict's names; looking the chosen name up in the dict returns the paired
entry, keys being unique), then a position inside the safe area shrunk
by the symbol's half extents, then a rotation from {0, 90, 180, 270},
then instance parameters for the chosen name. -/
def place_attempt (symbols : List (String × Symbol))
    (safe_x_min safe_x_max safe_y_min safe_y_max : ℚ) (s : Rng) :
    Except String (PlacedSymbol × Rng) :=
  match choice symbols s with
  | .error e => .error e
  | .ok (chosen, s1) =>
    let symbol_name := chosen.1
    let symbol := chosen.2
    let xr := uniform (safe_x_min + symbol.width_mm / 2)
      (safe_x_max - symbol.width_mm / 2) s1
    let yr := uniform (safe_y_min + symbol.height_mm / 2)
      (safe_y_max - symbol.height_mm / 2) xr.2
    let rr := choice1 (0 : ℚ) [90, 180, 270] yr.2
    let pr := SymbolParameterGenerator.generate_params symbol_name rr.2
    .ok (⟨symbol, xr.1, yr.1, rr.1, pr.1⟩, pr.2)

/-- The `while len(placed_symbols) < symbol_count and attempts < max_attempts`
loop of `place_symbols_randomly`.  `fuel` is the remaining attempt
budget (`max_attempts - attempts`), `attempts` counts executed
iterations; a candidate colliding with any accepted symbol (for-loop
with break, i.e. `List.any`) is discarded, otherwise it is appended.
The result carries the final accepted list, stream state and attempt
count. -/
def place_loop (symbols : List (String × Symbol))
    (safe_x_min safe_x_max safe_y_min safe_y_max : ℚ) (symbol_count : ℤ)
    (placed_symbols : List PlacedSymbol) (attempts : Nat) (fuel : Nat) (s : Rng) :
    Except String (List PlacedSymbol × Rng × Nat) :=
  match fuel with
  | 0 => .ok (placed_symbols, s, attempts)
  | fuel' + 1 =>
    if (placed_symbols.length : ℤ) < symbol_count then
      match place_attempt symbols safe_x_min safe_x_max safe_y_min safe_y_max s with
      | .error e => .error e
      | .ok (placed_symbol, s5) =>
        if placed_symbols.any fun existing_symbol =>
            CollisionDetector.check_collision placed_symbol existing_symbol 2 then
          place_loop symbols safe_x_min safe_x_max safe_y_min safe_y_max
            symbol_count placed_symbols (attempts + 1) fuel' s5
        else
          place_loop symbols safe_x_min safe_x_max safe_y_min safe_y_max
            symbol_count (placed_symbols ++ [placed_symbol]) (attempts + 1) fuel' s5
    else .ok (placed_symbols, s, attempts)

/-- Embedding of `SymbolPlacer.place_symbols_randomly`, instrumented with the final
stream state and attempt count: seed the stream, resolve the sheet size
(propagating the `ValueError` of an unknown name), compute the safe
placement area from the 10 mm margin, set
`max_attempts = symbol_count * 10` and run the placement loop starting
from an empty accepted list. -/
def place_symbols_with_state (placer : SymbolPlacer) (sheet_size : String)
    (symbol_count : ℤ) (seed : Nat) :
    Except String (List PlacedSymbol × Rng × Nat) :=
  let s0 := Rng.seeded seed
  match SheetDimensions.get_size sheet_size with
  | .error e => .error e
  | .ok wh =>
    let sheet_width := wh.1
    let sheet_height := wh.2
    let margin := MARGIN
    let safe_x_min := margin
    let safe_x_max := sheet_width - margin
    let safe_y_min := margin
    let safe_y_max := sheet_height - margin
    let max_attempts := (symbol_count * 10).toNat
    place_loop placer.symbols safe_x_min safe_x_max safe_y_min safe_y_max
      symbol_count [] 0 max_attempts s0

/-- Embedding of `SymbolPlacer.place_symbols_randomly`: the returned placement list
(the trailing shortfall warning only prints). -/
def place_symbols_randomly (placer : SymbolPlacer) (sheet_size : String)
    (symbol_count : ℤ) (seed : Nat) : Except String (List PlacedSymbol) :=
  (place_symbols_with_state placer sheet_size symbol_count seed).map fun r => r.1

/-- The non-overlap property of a result list: every pair of distinct
positions holds two symbols whose collision check (at the configured
2 mm spacing) is false, in both argument orders. -/
def pairwise_non_colliding (l : List PlacedSymbol) : Prop :=
  ∀ i j (hi : i < l.length) (hj : j < l.length), i ≠ j →
    CollisionDetector.check_collision (l.get ⟨i, hi⟩) (l.get ⟨j, hj⟩) 2 = false

/-- A placed symbol's axis-aligned bounding box lies inside the given
safe rectangle. -/
def within_bounds (x0 x1 y0 y1 : ℚ) (p : PlacedSymbol) : Prop :=
  x0 ≤ (CollisionDetector.get_bounding_box p).1 ∧
  (CollisionDetector.get_bounding_box p).2.2.1 ≤ x1 ∧
  y0 ≤ (CollisionDetector.get_bounding_box p).2.1 ∧
  (CollisionDetector.get_bounding_box p).2.2.2 ≤ y1

/-- Every placed symbol of a result list has its bounding box inside the
given safe rectangle. -/
def all_within_bounds (x0 x1 y0 y1 : ℚ) (l : List PlacedSymbol) : Prop :=
  ∀ p ∈ l, within_bounds x0 x1 y0 y1 p

/-- The placer loaded with the mock catalog (constructor fallback). -/
def mockPlacer : SymbolPlacer := ⟨mock_symbols⟩

/-- A symbol wider than the A4 usable area (210 mm wide on a 210 mm
sheet with 10 mm margins). -/
def bigSym : Symbol := ⟨"big", "big.svg", 210, 10, []⟩

/-- A placer whose catalog holds only `bigSym`. -/
def bigPlacer : SymbolPlacer := ⟨[("big", bigSym)]⟩

/-- A placer whose catalog holds only the degenerate `radius_symbol`
(height 0, as in the mock catalog). -/
def degPlacer : SymbolPlacer :=
  ⟨[("radius_symbol", ⟨"radius_symbol", "radius_symbol.svg", 4, 0, []⟩)]⟩

/-- A 2 mm x 2 mm symbol centred at the origin. -/
def symA : PlacedSymbol := ⟨⟨"a", "a.svg", 2, 2, []⟩, 0, 0, 0, []⟩

/-- A 2 mm x 2 mm symbol centred at (4, 0): with 2 mm spacing its box
exactly touches the expanded box of `symA`. -/
def symB : PlacedSymbol := ⟨⟨"b", "b.svg", 2, 2, []⟩, 4, 0, 0, []⟩

/-! ### Basic lemmas about the random primitives -/

theorem randFloat_fst (s : Rng) :
    (randFloat s).1 = ((Rng.next s % RAND_DENOM : Nat) : ℚ) / (RAND_DENOM : ℚ) := rfl

theorem randFloat_nonneg (s : Rng) : 0 ≤ (randFloat s).1 := by
  rw [randFloat_fst]
  positivity

theorem randFloat_lt_one (s : Rng) : (randFloat s).1 < 1 := by
  rw [randFloat_fst, div_lt_one (by norm_num [RAND_DENOM])]
  exact Nat.cast_lt.mpr (Nat.mod_lt _ (Nat.pos_pow_of_pos 53 (by norm_num)))

theorem uniform_fst (a b : ℚ) (s : Rng) :
    (uniform a b s).1 = a + (b - a) * (randFloat s).1 := rfl

theorem uniform_le_left {a b : ℚ} (h : a ≤ b) (s : Rng) : a ≤ (uniform a b s).1 := by
  rw [uniform_fst]
  nlinarith [randFloat_nonneg s, randFloat_lt_one s]

theorem uniform_le_right {a b : ℚ} (h : a ≤ b) (s : Rng) : (uniform a b s).1 ≤ b := by
  rw [uniform_fst]
  nlinarith [randFloat_nonneg s, randFloat_lt_one s]

theorem uniform_reversed_gt {a b : ℚ} (h : b < a) (s : Rng) : b < (uniform a b s).1 := by
  rw [uniform_fst]
  nlinarith [randFloat_nonneg s, randFloat_lt_one s]

theorem getD_head_mem {α : Type} (a : α) (rest : List α) (k : Nat) :
    (a :: rest).getD k a ∈ a :: rest := by
  rcases Nat.lt_or_ge k (a :: rest).length with h | h
  · rw [List.getD_eq_get _ _ h]
    exact List.get_mem _ _ _
  · rw [List.getD_eq_default _ _ h]
    exact List.mem_cons_self _ _

theorem choice_mem {α : Type} {seq : List α} {s : Rng} {v : α} {s' : Rng}
    (h : choice seq s = .ok (v, s')) : v ∈ seq := by
  match seq with
  | [] => simp [choice] at h
  | a :: rest =>
    simp only [choice, choice1, Except.ok.injEq, Prod.mk.injEq] at h
    rw [← h.1]
    exact getD_head_mem _ _ _

theorem choice_ok_of_ne_nil {α : Type} {seq : List α} (h : seq ≠ []) (s : Rng) :
    ∃ v s', choice seq s = .ok (v, s') := by
  match seq with
  | [] => exact absurd rfl h
  | a :: rest => exact ⟨_, _, rfl⟩

/-! ### Characterisation and symmetry of the collision check -/

theorem check_collision_eq_false_iff (s1 s2 : PlacedSymbol) (m : ℚ) :
    CollisionDetector.check_collision s1 s2 m = false ↔
      (s1.x + s1.symbol.width_mm / 2 + m < s2.x - s2.symbol.width_mm / 2 ∨
       s2.x + s2.symbol.width_mm / 2 < s1.x - s1.symbol.width_mm / 2 - m ∨
       s1.y + s1.symbol.height_mm / 2 + m < s2.y - s2.symbol.height_mm / 2 ∨
       s2.y + s2.symbol.height_mm / 2 < s1.y - s1.symbol.height_mm / 2 - m) := by
  simp only [CollisionDetector.check_collision, CollisionDetector.get_bounding_box,
    decide_eq_false_iff_not, not_not]

theorem check_collision_false_comm (s1 s2 : PlacedSymbol) (m : ℚ) :
    CollisionDetector.check_collision s1 s2 m = false ↔
      CollisionDetector.check_collision s2 s1 m = false := by
  rw [check_collision_eq_false_iff, check_collision_eq_false_iff]
  constructor
  · rintro (h | h | h | h)
    · exact Or.inr (Or.inl (by linarith))
    · exact Or.inl (by linarith)
    · exact Or.inr (Or.inr (Or.inr (by linarith)))
    · exact Or.inr (Or.inr (Or.inl (by linarith)))
  · rintro (h | h | h | h)
    · exact Or.inr (Or.inl (by linarith))
    · exact Or.inl (by linarith)
    · exact Or.inr (Or.inr (Or.inr (by linarith)))
    · exact Or.inr (Or.inr (Or.inl (by linarith)))

theorem check_collision_comm (s1 s2 : PlacedSymbol) (m : ℚ) :
    CollisionDetector.check_collision s1 s2 m =
      CollisionDetector.check_collision s2 s1 m := by
  have h := check_collision_false_comm s1 s2 m
  cases ha : CollisionDetector.check_collision s1 s2 m with
  | false => exact (h.mp ha).symm
  | true =>
    cases hb : CollisionDetector.check_collision s2 s1 m with
    | false =>
      have h3 := h.mpr hb
      rw [ha] at h3
      exact Bool.noConfusion h3
    | true => rfl

/-! ### Lemmas about one placement attempt -/

theorem gbb_parts (p : PlacedSymbol) :
    CollisionDetector.get_bounding_box p =
      (p.x - p.symbol.width_mm / 2, p.y - p.symbol.height_mm / 2,
       p.x + p.symbol.width_mm / 2, p.y + p.symbol.height_mm / 2) := rfl

theorem place_attempt_ok_of_ne_nil {symbols : List (String × Symbol)}
    (hne : symbols ≠ []) (x0 x1 y0 y1 : ℚ) (s : Rng) :
    ∃ p s', place_attempt symbols x0 x1 y0 y1 s = .ok (p, s') := by
  obtain ⟨v, s1, hv⟩ := choice_ok_of_ne_nil hne s
  exact ⟨_, _, by rw [place_attempt, hv]⟩

theorem place_attempt_ok_elim {symbols : List (String × Symbol)} {x0 x1 y0 y1 : ℚ}
    {s : Rng} {p : PlacedSymbol} {s' : Rng}
    (h : place_attempt symbols x0 x1 y0 y1 s = .ok (p, s')) :
    (∃ e ∈ symbols, p.symbol = e.2) ∧
    (∃ t, p.x = (uniform (x0 + p.symbol.width_mm / 2) (x1 - p.symbol.width_mm / 2) t).1) ∧
    (∃ u, p.y = (uniform (y0 + p.symbol.height_mm / 2) (y1 - p.symbol.height_mm / 2) u).1) := by
  cases hc : choice symbols s with
  | error e =>
    rw [place_attempt, hc] at h
    exact Except.noConfusion h
  | ok vs =>
    obtain ⟨v, s1⟩ := vs
    rw [place_attempt, hc] at h
    simp only [Except.ok.injEq, Prod.mk.injEq] at h
    obtain ⟨hp, -⟩ := h
    subst hp
    exact ⟨⟨v, choice_mem hc, rfl⟩, ⟨s1, rfl⟩, ⟨(randFloat s1).2, rfl⟩⟩

/-! ### Invariants of the placement loop -/

/-- Mutual non-collision at the configured 2 mm spacing, in both
argument orders. -/
def sep2 (a b : PlacedSymbol) : Prop :=
  CollisionDetector.check_collision a b 2 = false ∧
  CollisionDetector.check_collision b a 2 = false

theorem place_loop_ok {symbols : List (String × Symbol)} (hne : symbols ≠ [])
    (x0 x1 y0 y1 : ℚ) (count : ℤ) :
    ∀ (fuel : Nat) (placed : List PlacedSymbol) (att : Nat) (s : Rng),
    ∃ l s' att', place_loop symbols x0 x1 y0 y1 count placed att fuel s = .ok (l, s', att') := by
  intro fuel
  induction fuel with
  | zero => intro placed att s; exact ⟨placed, s, att, rfl⟩
  | succ n ih =>
    intro placed att s
    rw [place_loop]
    by_cases hlt : (placed.length : ℤ) < count
    · rw [if_pos hlt]
      obtain ⟨p, s5, hp⟩ := place_attempt_ok_of_ne_nil hne x0 x1 y0 y1 s
      rw [hp]
      dsimp only
      by_cases hcol : (placed.any fun e => CollisionDetector.check_collision p e 2) = true
      · rw [if_pos hcol]; exact ih placed (att + 1) s5
      · rw [if_neg hcol]; exact ih (placed ++ [p]) (att + 1) s5
    · rw [if_neg hlt]
      exact ⟨placed, s, att, rfl⟩

theorem place_loop_attempts {symbols : List (String × Symbol)} {x0 x1 y0 y1 : ℚ}
    {count : ℤ} :
    ∀ (fuel : Nat) (placed : List PlacedSymbol) (att : Nat) (s : Rng)
      (l : List PlacedSymbol) (s' : Rng) (att' : Nat),
    place_loop symbols x0 x1 y0 y1 count placed att fuel s = .ok (l, s', att') →
    att' ≤ att + fuel := by
  intro fuel
  induction fuel with
  | zero =>
    intro placed att s l s' att' h
    simp only [place_loop, Except.ok.injEq, Prod.mk.injEq] at h
    omega
  | succ n ih =>
    intro placed att s l s' att' h
    rw [place_loop] at h
    by_cases hlt : (placed.length : ℤ) < count
    · rw [if_pos hlt] at h
      cases hc : place_attempt symbols x0 x1 y0 y1 s with
      | error e => rw [hc] at h; exact Except.noConfusion h
      | ok ps =>
        obtain ⟨p, s5⟩ := ps
        rw [hc] at h
        dsimp only at h
        by_cases hcol : (placed.any fun e => CollisionDetector.check_collision p e 2) = true
        · rw [if_pos hcol] at h
          have := ih _ _ _ _ _ _ h
          omega
        · rw [if_neg hcol] at h
          have := ih _ _ _ _ _ _ h
          omega
    · rw [if_neg hlt] at h
      simp only [Except.ok.injEq, Prod.mk.injEq] at h
      omega

theorem place_loop_length {symbols : List (String × Symbol)} {x0 x1 y0 y1 : ℚ}
    {count : ℤ} :
    ∀ (fuel : Nat) (placed : List PlacedSymbol) (att : Nat) (s : Rng)
      (l : List PlacedSymbol) (s' : Rng) (att' : Nat),
    place_loop symbols x0 x1 y0 y1 count placed att fuel s = .ok (l, s', att') →
    l.length ≤ max placed.length count.toNat := by
  intro fuel
  induction fuel with
  | zero =>
    intro placed att s l s' att' h
    simp only [place_loop, Except.ok.injEq, Prod.mk.injEq] at h
    obtain ⟨rfl, -⟩ := h
    omega
  | succ n ih =>
    intro placed att s l s' att' h
    rw [place_loop] at h
    by_cases hlt : (placed.length : ℤ) < count
    · rw [if_pos hlt] at h
      cases hc : place_attempt symbols x0 x1 y0 y1 s with
      | error e => rw [hc] at h; exact Except.noConfusion h
      | ok ps =>
        obtain ⟨p, s5⟩ := ps
        rw [hc] at h
        dsimp only at h
        by_cases hcol : (placed.any fun e => CollisionDetector.check_collision p e 2) = true
        · rw [if_pos hcol] at h
          exact ih _ _ _ _ _ _ h
        · rw [if_neg hcol] at h
          have := ih _ _ _ _ _ _ h
          have hlen : (placed ++ [p]).length = placed.length + 1 := by
            simp
          rw [hlen] at this
          omega
    · rw [if_neg hlt] at h
      simp only [Except.ok.injEq, Prod.mk.injEq] at h
      obtain ⟨rfl, -⟩ := h
      omega

theorem place_loop_pairwise {symbols : List (String × Symbol)} {x0 x1 y0 y1 : ℚ}
    {count : ℤ} :
    ∀ (fuel : Nat) (placed : List PlacedSymbol) (att : Nat) (s : Rng)
      (l : List PlacedSymbol) (s' : Rng) (att' : Nat),
    List.Pairwise sep2 placed →
    place_loop symbols x0 x1 y0 y1 count placed att fuel s = .ok (l, s', att') →
    List.Pairwise sep2 l := by
  intro fuel
  induction fuel with
  | zero =>
    intro placed att s l s' att' hpw h
    simp only [place_loop, Except.ok.injEq, Prod.mk.injEq] at h
    obtain ⟨rfl, -⟩ := h
    exact hpw
  | succ n ih =>
    intro placed att s l s' att' hpw h
    rw [place_loop] at h
    by_cases hlt : (placed.length : ℤ) < count
    · rw [if_pos hlt] at h
      cases hc : place_attempt symbols x0 x1 y0 y1 s with
      | error e => rw [hc] at h; exact Except.noConfusion h
      | ok ps =>
        obtain ⟨p, s5⟩ := ps
        rw [hc] at h
        dsimp only at h
        by_cases hcol : (placed.any fun e => CollisionDetector.check_collision p e 2) = true
        · rw [if_pos hcol] at h
          exact ih _ _ _ _ _ _ hpw h
        · rw [if_neg hcol] at h
          have hall : ∀ e ∈ placed, CollisionDetector.check_collision p e 2 = false := by
            intro e he
            rcases hce : CollisionDetector.check_collision p e 2 with _ | _
            · rfl
            · exact absurd (List.any_eq_true.mpr ⟨e, he, hce⟩) hcol
          have hpw' : List.Pairwise sep2 (placed ++ [p]) := by
            rw [List.pairwise_append]
            refine ⟨hpw, List.pairwise_singleton _ _, ?_⟩
            intro a ha b hb
            rw [List.mem_singleton] at hb
            rw [hb]
            exact ⟨(check_collision_false_comm p a 2).mp (hall a ha), hall a ha⟩
          exact ih _ _ _ _ _ _ hpw' h
    · rw [if_neg hlt] at h
      simp only [Except.ok.injEq, Prod.mk.injEq] at h
      obtain ⟨rfl, -⟩ := h
      exact hpw

theorem place_loop_bounds {symbols : List (String × Symbol)} {x0 x1 y0 y1 : ℚ}
    {count : ℤ}
    (hfit : ∀ e ∈ symbols, e.2.width_mm ≤ x1 - x0 ∧ e.2.height_mm ≤ y1 - y0) :
    ∀ (fuel : Nat) (placed : List PlacedSymbol) (att : Nat) (s : Rng)
      (l : List PlacedSymbol) (s' : Rng) (att' : Nat),
    (∀ q ∈ placed, within_bounds x0 x1 y0 y1 q) →
    place_loop symbols x0 x1 y0 y1 count placed att fuel s = .ok (l, s', att') →
    ∀ q ∈ l, within_bounds x0 x1 y0 y1 q := by
  intro fuel
  induction fuel with
  | zero =>
    intro placed att s l s' att' hin h
    simp only [place_loop, Except.ok.injEq, Prod.mk.injEq] at h
    obtain ⟨rfl, -⟩ := h
    exact hin
  | succ n ih =>
    intro placed att s l s' att' hin h
    rw [place_loop] at h
    by_cases hlt : (placed.length : ℤ) < count
    · rw [if_pos hlt] at h
      cases hc : place_attempt symbols x0 x1 y0 y1 s with
      | error e => rw [hc] at h; exact Except.noConfusion h
      | ok ps =>
        obtain ⟨p, s5⟩ := ps
        rw [hc] at h
        dsimp only at h
        by_cases hcol : (placed.any fun e => CollisionDetector.check_collision p e 2) = true
        · rw [if_pos hcol] at h
          exact ih _ _ _ _ _ _ hin h
        · rw [if_neg hcol] at h
          obtain ⟨⟨e, he, hsym⟩, ⟨t, hx⟩, ⟨u, hy⟩⟩ := place_attempt_ok_elim hc
          obtain ⟨hw, hh⟩ := hfit e he
          rw [← hsym] at hw hh
          have hp : within_bounds x0 x1 y0 y1 p := by
            have hwx : x0 + p.symbol.width_mm / 2 ≤ x1 - p.symbol.width_mm / 2 := by
              linarith
            have hwy : y0 + p.symbol.height_mm / 2 ≤ y1 - p.symbol.height_mm / 2 := by
              linarith
            have hx1 := uniform_le_left hwx t
            have hx2 := uniform_le_right hwx t
            have hy1 := uniform_le_left hwy u
            have hy2 := uniform_le_right hwy u
            rw [← hx] at hx1 hx2
            rw [← hy] at hy1 hy2
            refine ⟨?_, ?_, ?_, ?_⟩ <;>
              simp only [gbb_parts] <;> linarith
          have hin' : ∀ q ∈ placed ++ [p], within_bounds x0 x1 y0 y1 q := by
            intro q hq
            rcases List.mem_append.mp hq with hq | hq
            · exact hin q hq
            · rw [List.mem_singleton] at hq
              rw [hq]
              exact hp
          exact ih _ _ _ _ _ _ hin' h
    · rw [if_neg hlt] at h
      simp only [Except.ok.injEq, Prod.mk.injEq] at h
      obtain ⟨rfl, -⟩ := h
      exact hin

/-! ### Shape lemmas for the top-level function -/

theorem place_symbols_with_state_eq {sheet : String} {W H : ℚ}
    (placer : SymbolPlacer) (count : ℤ) (seed : Nat)
    (hsz : SheetDimensions.get_size sheet = .ok (W, H)) :
    place_symbols_with_state placer sheet count seed =
      place_loop placer.symbols MARGIN (W - MARGIN) MARGIN (H - MARGIN) count
        [] 0 (count * 10).toNat (Rng.seeded seed) := by
  unfold place_symbols_with_state
  rw [hsz]

theorem place_symbols_with_state_error {sheet : String} {e : String}
    (placer : SymbolPlacer) (count : ℤ) (seed : Nat)
    (hsz : SheetDimensions.get_size sheet = .error e) :
    place_symbols_with_state placer sheet count seed = .error e := by
  unfold place_symbols_with_state
  rw [hsz]

theorem place_loop_first_accept {symbols : List (String × Symbol)}
    {x0 x1 y0 y1 : ℚ} {count : ℤ} (hcount : 0 < count)
    {fuel : Nat} {s : Rng} {p : PlacedSymbol} {s5 : Rng}
    (h : place_attempt symbols x0 x1 y0 y1 s = .ok (p, s5)) :
    place_loop symbols x0 x1 y0 y1 count [] 0 (fuel + 1) s =
      place_loop symbols x0 x1 y0 y1 count [p] 1 fuel s5 := by
  rw [place_loop, if_pos (by simpa using hcount), h]
  dsimp only
  rw [if_neg (by simp)]
  rfl

theorem place_loop_done {symbols : List (String × Symbol)} {x0 x1 y0 y1 : ℚ}
    {count : ℤ} {placed : List PlacedSymbol} {att fuel : Nat} {s : Rng}
    (h : ¬ ((placed.length : ℤ) < count)) :
    place_loop symbols x0 x1 y0 y1 count placed att (fuel + 1) s =
      .ok (placed, s, att) := by
  rw [place_loop, if_neg h]

theorem pairwise_sep2_non_colliding {l : List PlacedSymbol}
    (h : List.Pairwise sep2 l) : pairwise_non_colliding l := by
  intro i j hi hj hne
  rcases Nat.lt_or_ge i j with hij | hij
  · exact ((List.pairwise_iff_get.mp h) ⟨i, hi⟩ ⟨j, hj⟩ hij).1
  · have hji : j < i := Nat.lt_of_le_of_ne hij (Ne.symm hne)
    exact ((List.pairwise_iff_get.mp h) ⟨j, hj⟩ ⟨i, hi⟩ hji).2

theorem place_ok_of_with_state {placer : SymbolPlacer} {sheet : String}
    {count : ℤ} {seed : Nat} {l : List PlacedSymbol}
    (h : place_symbols_randomly placer sheet count seed = .ok l) :
    ∃ s' att, place_symbols_with_state placer sheet count seed = .ok (l, s', att) := by
  unfold place_symbols_randomly at h
  cases hw : place_symbols_with_state placer sheet count seed with
  | error e => rw [hw] at h; exact Except.noConfusion h
  | ok r =>
    obtain ⟨lr, sr, ar⟩ := r
    rw [hw] at h
    simp only [Except.map, Except.ok.injEq] at h
    rw [← h]
    exact ⟨sr, ar, rfl⟩

theorem with_state_ok_get_size {placer : SymbolPlacer} {sheet : String}
    {count : ℤ} {seed : Nat} {r : List PlacedSymbol × Rng × Nat}
    (h : place_symbols_with_state placer sheet count seed = .ok r) :
    ∃ W H, SheetDimensions.get_size sheet = .ok (W, H) := by
  cases hsz : SheetDimensions.get_size sheet with
  | error e =>
    rw [place_symbols_with_state_error placer count seed hsz] at h
    exact Except.noConfusion h
  | ok wh =>
    obtain ⟨W, H⟩ := wh
    exact ⟨W, H, rfl⟩

/-- C1: Determinism — for every sheet size, requested count and seed, two
invocations of `place_symbols_randomly` on placers loaded with the same
catalog produce identical lists of `PlacedSymbol` (same symbol choices,
positions, rotations and instance parameters, in the same order); the
instrumented run also ends in the identical random-stream state and
attempt count, so stream consumption — including on iterations whose
candidate is rejected — is reproduced identically. -/
theorem C1_determinism (p1 p2 : SymbolPlacer) (sheet : String) (count : ℤ)
    (seed : Nat) (hcat : p1.symbols = p2.symbols) :
    place_symbols_with_state p1 sheet count seed =
      place_symbols_with_state p2 sheet count seed ∧
    place_symbols_randomly p1 sheet count seed =
      place_symbols_randomly p2 sheet count seed := by
  cases p1
  cases p2
  simp only at hcat
  subst hcat
  exact ⟨rfl, rfl⟩

/-- C1 witness: the determinism theorem applied to two placers loaded
with the mock catalog. -/
theorem C1_witness :
    place_symbols_with_state mockPlacer "A4" 3 42 =
      place_symbols_with_state mockPlacer "A4" 3 42 ∧
    place_symbols_randomly mockPlacer "A4" 3 42 =
      place_symbols_randomly mockPlacer "A4" 3 42 :=
  C1_determinism mockPlacer mockPlacer "A4" 3 42 rfl

/-- C2: Non-overlap invariant — every list returned by
`place_symbols_randomly` is pairwise non-colliding: for every pair of
distinct positions (i, j) in the result, `check_collision` at the
configured 2 mm spacing returns false. -/
theorem C2_non_overlap (placer : SymbolPlacer) (sheet : String) (count : ℤ)
    (seed : Nat) (l : List PlacedSymbol)
    (h : place_symbols_randomly placer sheet count seed = .ok l) :
    pairwise_non_colliding l := by
  obtain ⟨s', att, hw⟩ := place_ok_of_with_state h
  obtain ⟨W, H, hsz⟩ := with_state_ok_get_size hw
  rw [place_symbols_with_state_eq placer count seed hsz] at hw
  exact pairwise_sep2_non_colliding
    (place_loop_pairwise _ _ _ _ _ _ _ List.Pairwise.nil hw)

/-- C2 witness: the non-overlap theorem applied to a concrete run
(requested count 0 on the mock catalog, whose result is the empty
list). -/
theorem C2_witness : pairwise_non_colliding [] :=
  C2_non_overlap mockPlacer "A4" 0 0 [] rfl

/-- C6: Count bound — every successfully returned list has length at
most the requested count (clamped at zero, so a negative request also
returns nothing), and for `requested_count <= 0` on a valid sheet the
function returns the empty list immediately. -/
theorem C6_count_bound (placer : SymbolPlacer) (sheet : String) (count : ℤ)
    (seed : Nat) :
    (∀ l, place_symbols_randomly placer sheet count seed = .ok l →
      l.length ≤ count.toNat) ∧
    (∀ (W H : ℚ), SheetDimensions.get_size sheet = .ok (W, H) → count ≤ 0 →
      place_symbols_randomly placer sheet count seed = .ok []) := by
  constructor
  · intro l h
    obtain ⟨s', att, hw⟩ := place_ok_of_with_state h
    obtain ⟨W, H, hsz⟩ := with_state_ok_get_size hw
    rw [place_symbols_with_state_eq placer count seed hsz] at hw
    have := place_loop_length _ _ _ _ _ _ _ hw
    simpa using this
  · intro W H hsz hcount
    rw [place_symbols_randomly, place_symbols_with_state_eq placer count seed hsz,
      show (count * 10).toNat = 0 by omega]
    rfl

/-- C6 witness: the count-bound theorem applied to a concrete run with
requested count 0 on the mock catalog. -/
theorem C6_witness :
    ([] : List PlacedSymbol).length ≤ (0 : ℤ).toNat ∧
    place_symbols_randomly mockPlacer "A4" 0 0 = .ok [] :=
  ⟨(C6_count_bound mockPlacer "A4" 0 0).1 [] rfl,
   (C6_count_bound mockPlacer "A4" 0 0).2 210 297 rfl (le_refl 0)⟩

/-- C7: Bounded termination with partial success — on a valid sheet with
a non-empty catalog, `place_symbols_randomly` always returns normally
(`Except.ok`, never an exception), and the number of executed loop
iterations is at most `symbol_count * 10` (the `max_attempts` budget);
in particular a run whose budget is exhausted still returns the partial
list it accumulated. -/
theorem C7_bounded_termination (placer : SymbolPlacer) (sheet : String)
    (count : ℤ) (seed : Nat) (W H : ℚ)
    (hsz : SheetDimensions.get_size sheet = .ok (W, H))
    (hne : placer.symbols ≠ []) :
    ∃ l s' att, place_symbols_with_state placer sheet count seed = .ok (l, s', att) ∧
      att ≤ (count * 10).toNat ∧
      place_symbols_randomly placer sheet count seed = .ok l := by
  have hws := place_symbols_with_state_eq placer count seed hsz
  obtain ⟨l, s', att, h⟩ := place_loop_ok hne MARGIN (W - MARGIN) MARGIN (H - MARGIN)
    count ((count * 10).toNat) [] 0 (Rng.seeded seed)
  have hatt := place_loop_attempts _ _ _ _ _ _ _ h
  refine ⟨l, s', att, by rw [hws, h], by omega, ?_⟩
  rw [place_symbols_randomly, hws, h]
  rfl

/-- C7 witness: the bounded-termination theorem applied to the mock
catalog on A4. -/
theorem C7_witness :
    ∃ l s' att, place_symbols_with_state mockPlacer "A4" 3 42 = .ok (l, s', att) ∧
      att ≤ ((3 : ℤ) * 10).toNat ∧
      place_symbols_randomly mockPlacer "A4" 3 42 = .ok l :=
  C7_bounded_termination mockPlacer "A4" 3 42 210 297 rfl
    (List.cons_ne_nil _ _)

/-- C9: Invalid sheet name — for every sheet-size string outside the
fixed enumerated set, `place_symbols_randomly` fails fast with the
"Unsupported sheet size" error (raised by `SheetDimensions.get_size`
before any symbol is placed). -/
theorem C9_invalid_sheet (placer : SymbolPlacer) (sheet : String) (count : ℤ)
    (seed : Nat) (h : sheet ∉ SheetDimensions.SIZES.map Prod.fst) :
    place_symbols_randomly placer sheet count seed =
      .error ("Unsupported sheet size: " ++ sheet) := by
  simp only [SheetDimensions.SIZES, List.map, List.mem_cons, List.not_mem_nil,
    or_false, not_or] at h
  obtain ⟨h1, h2, h3⟩ := h
  have hsz : SheetDimensions.get_size sheet =
      .error ("Unsupported sheet size: " ++ sheet) := by
    rw [SheetDimensions.get_size]
    rw [show SheetDimensions.SIZES.lookup sheet = none by
      simp only [SheetDimensions.SIZES, List.lookup]
      rw [show (sheet == "A4") = false from beq_eq_false_iff_ne.mpr h1,
        show (sheet == "A3") = false from beq_eq_false_iff_ne.mpr h2,
        show (sheet == "US-Letter") = false from beq_eq_false_iff_ne.mpr h3]]
  rw [place_symbols_randomly, place_symbols_with_state_error placer count seed hsz]
  rfl

/-- C9 witness: the invalid-sheet theorem applied to the unknown sheet
name "A5". -/
theorem C9_witness :
    place_symbols_randomly mockPlacer "A5" 3 42 =
      .error ("Unsupported sheet size: " ++ "A5") :=
  C9_invalid_sheet mockPlacer "A5" 3 42 (by simp [SheetDimensions.SIZES])

/-- C10: `check_collision` is symmetric — for every pair of placed
symbols and every non-negative spacing, swapping the operands does not
change the verdict, even though the buffer is added to only the first
operand's box. -/
theorem C10_symmetric (a b : PlacedSymbol) (s : ℚ) (hs : 0 ≤ s) :
    CollisionDetector.check_collision a b s =
      CollisionDetector.check_collision b a s :=
  check_collision_comm a b s

/-- C10 witness: symmetry at two concrete touching symbols and
spacing 2. -/
theorem C10_witness :
    CollisionDetector.check_collision symA symB 2 =
      CollisionDetector.check_collision symB symA 2 :=
  C10_symmetric symA symB 2 (by norm_num)

theorem check_collision_eq_true_iff (s1 s2 : PlacedSymbol) (m : ℚ) :
    CollisionDetector.check_collision s1 s2 m = true ↔
      ¬ (s1.x + s1.symbol.width_mm / 2 + m < s2.x - s2.symbol.width_mm / 2 ∨
         s2.x + s2.symbol.width_mm / 2 < s1.x - s1.symbol.width_mm / 2 - m ∨
         s1.y + s1.symbol.height_mm / 2 + m < s2.y - s2.symbol.height_mm / 2 ∨
         s2.y + s2.symbol.height_mm / 2 < s1.y - s1.symbol.height_mm / 2 - m) := by
  simp only [CollisionDetector.check_collision, CollisionDetector.get_bounding_box,
    decide_eq_true_eq]

/-- C4 counterexample: with an empty catalog and requested count 5 the
function does not return an empty list; it raises the `IndexError` of
`random.choice` on an empty sequence. -/
theorem C4_counterexample :
    place_symbols_randomly ⟨[]⟩ "A4" 5 0 =
      .error "Cannot choose from an empty sequence" := rfl

/-- C4 amended: for every valid sheet, seed and requested count > 0, an
empty symbol catalog makes `place_symbols_randomly` raise the
`IndexError` of `random.choice` ("Cannot choose from an empty
sequence") on the first loop iteration, instead of returning an empty
list. -/
theorem C4_empty_catalog_amended (sheet : String) (count : ℤ) (seed : Nat)
    (W H : ℚ) (hsz : SheetDimensions.get_size sheet = .ok (W, H))
    (hc : 0 < count) :
    place_symbols_randomly (⟨[]⟩ : SymbolPlacer) sheet count seed =
      .error "Cannot choose from an empty sequence" := by
  rw [place_symbols_randomly,
    place_symbols_with_state_eq (⟨[]⟩ : SymbolPlacer) count seed hsz]
  obtain ⟨n, hn⟩ : ∃ n, (count * 10).toNat = n + 1 :=
    ⟨(count * 10).toNat - 1, by omega⟩
  rw [hn]
  simp only [place_loop, place_attempt, choice, List.length_nil]
  rw [if_pos (by exact_mod_cast hc)]
  rfl

/-- C4 witness: the amended empty-catalog theorem applied at sheet
"A4", requested count 5, seed 0. -/
theorem C4_witness :
    place_symbols_randomly (⟨[]⟩ : SymbolPlacer) "A4" 5 0 =
      .error "Cannot choose from an empty sequence" :=
  C4_empty_catalog_amended "A4" 5 0 210 297 rfl (by norm_num)

/-- C5 counterexample: two 2 mm boxes whose expanded separation is
exactly zero — `symA`'s box expanded by 2 mm ends at x = 3 where
`symB`'s box begins — are reported as colliding (`check_collision` is
true), because the separation test uses strict inequalities. -/
theorem C5_counterexample :
    CollisionDetector.check_collision symA symB 2 = true := by
  rw [check_collision_eq_true_iff]
  push_neg
  refine ⟨?_, ?_, ?_, ?_⟩ <;> norm_num [symA, symB]

/-- C5 amended: touching-but-not-overlapping boxes DO count as
colliding — whenever the first box expanded by the (non-negative)
spacing exactly touches the second box on the x axis while the y
extents overlap non-strictly, `check_collision` returns true; only
strictly separated boxes are non-colliding. -/
theorem C5_touching_amended (a b : PlacedSymbol) (s : ℚ)
    (hs : 0 ≤ s) (hwa : 0 ≤ a.symbol.width_mm) (hwb : 0 ≤ b.symbol.width_mm)
    (htouch : a.x + a.symbol.width_mm / 2 + s = b.x - b.symbol.width_mm / 2)
    (hy1 : b.y - b.symbol.height_mm / 2 ≤ a.y + a.symbol.height_mm / 2 + s)
    (hy2 : a.y - a.symbol.height_mm / 2 - s ≤ b.y + b.symbol.height_mm / 2) :
    CollisionDetector.check_collision a b s = true := by
  rw [check_collision_eq_true_iff]
  push_neg
  exact ⟨by linarith, by linarith, by linarith, by linarith⟩

/-- C5 witness: the amended touching theorem applied to the concrete
touching pair `symA`, `symB` at spacing 2. -/
theorem C5_witness :
    CollisionDetector.check_collision symA symB 2 = true :=
  C5_touching_amended symA symB 2 (by norm_num) (by norm_num [symA])
    (by norm_num [symB]) (by norm_num [symA, symB])
    (by norm_num [symA, symB]) (by norm_num [symA, symB])

/-- C8 counterexample: a catalog containing only the degenerate
`radius_symbol` (height 0, exactly as created by
`_create_mock_symbols`) still gets placed: the requested single
placement succeeds and the result consists of that degenerate symbol,
so draws of degenerate symbols are not skipped. -/
theorem C8_counterexample :
    (∃ e ∈ degPlacer.symbols, e.2.height_mm ≤ 0) ∧
    (place_symbols_randomly degPlacer "A4" 1 0).map
      (fun l => l.map fun p => p.symbol.name) = .ok ["radius_symbol"] := by
  constructor
  · exact ⟨("radius_symbol", ⟨"radius_symbol", "radius_symbol.svg", 4, 0, []⟩),
      List.mem_singleton.mpr rfl, le_refl 0⟩
  · rfl

/-- C8 amended: degenerate symbol dimensions (width or height ≤ 0 in
the catalog) are not skipped — the run still terminates normally
(`Except.ok`, no crash) and, as the counterexample shows, such symbols
can be placed like any other. -/
theorem C8_degenerate_amended (placer : SymbolPlacer) (sheet : String)
    (count : ℤ) (seed : Nat) (W H : ℚ)
    (hsz : SheetDimensions.get_size sheet = .ok (W, H))
    (hdeg : ∃ e ∈ placer.symbols, e.2.width_mm ≤ 0 ∨ e.2.height_mm ≤ 0) :
    ∃ l, place_symbols_randomly placer sheet count seed = .ok l := by
  obtain ⟨e, he, -⟩ := hdeg
  have hne : placer.symbols ≠ [] := List.ne_nil_of_mem he
  have hws := place_symbols_with_state_eq placer count seed hsz
  obtain ⟨l, s', att, h⟩ := place_loop_ok hne MARGIN (W - MARGIN) MARGIN (H - MARGIN)
    count ((count * 10).toNat) [] 0 (Rng.seeded seed)
  refine ⟨l, ?_⟩
  rw [place_symbols_randomly, hws, h]
  rfl

/-- C8 witness: the amended degenerate-dimensions theorem applied to
the catalog holding only the height-0 `radius_symbol`. -/
theorem C8_witness :
    ∃ l, place_symbols_randomly degPlacer "A4" 1 0 = .ok l :=
  C8_degenerate_amended degPlacer "A4" 1 0 210 297 rfl
    ⟨("radius_symbol", ⟨"radius_symbol", "radius_symbol.svg", 4, 0, []⟩),
      List.mem_singleton.mpr rfl, Or.inr (le_refl 0)⟩

/-- C3 counterexample: with a catalog symbol too wide for the sheet
(the 210 mm `bigSym` on A4), the first candidate is accepted against an
empty list without any bounds check, and its bounding box necessarily
sticks out past the usable region: the returned placement's `x_max`
exceeds `sheet_width - margin`. -/
theorem C3_counterexample :
    ∃ l, place_symbols_randomly bigPlacer "A4" 1 0 = .ok l ∧
      ∃ p ∈ l, (210 : ℚ) - MARGIN <
        (CollisionDetector.get_bounding_box p).2.2.1 := by
  have hsz : SheetDimensions.get_size "A4" = .ok (210, 297) := rfl
  have hne : bigPlacer.symbols ≠ [] := List.cons_ne_nil _ _
  obtain ⟨p, s5, hp⟩ := place_attempt_ok_of_ne_nil hne MARGIN ((210 : ℚ) - MARGIN)
    MARGIN ((297 : ℚ) - MARGIN) (Rng.seeded 0)
  obtain ⟨⟨e, he, hsym⟩, ⟨t, hx⟩, -⟩ := place_attempt_ok_elim hp
  have he' : e = ("big", bigSym) := by
    simpa [bigPlacer] using he
  have hw : p.symbol.width_mm = 210 := by
    rw [hsym, he']
    rfl
  have hgt : (210 : ℚ) - MARGIN - p.symbol.width_mm / 2 < p.x := by
    rw [hx]
    exact uniform_reversed_gt (by rw [hw]; norm_num [MARGIN]) t
  have hrun : place_symbols_randomly bigPlacer "A4" 1 0 = .ok [p] := by
    rw [place_symbols_randomly, place_symbols_with_state_eq bigPlacer 1 0 hsz]
    rw [show ((1 : ℤ) * 10).toNat = 9 + 1 from rfl]
    rw [place_loop_first_accept (by norm_num) hp]
    rw [show (9 : Nat) = 8 + 1 from rfl]
    rw [place_loop_done (by simp)]
    rfl
  refine ⟨[p], hrun, p, List.mem_singleton.mpr rfl, ?_⟩
  rw [gbb_parts]
  dsimp only
  rw [hw] at hgt ⊢
  linarith [hgt]

/-- C3 amended: the bounds invariant holds for every catalog whose
symbols fit the usable region — if each catalog symbol's width and
height are at most `sheet - 2 * margin`, then every returned
`PlacedSymbol` has its axis-aligned bounding box inside the sheet minus
the margin.  (Without that fit condition the claim is false: an
oversized symbol is placed sticking out, as the counterexample
shows.) -/
theorem C3_bounds_amended (placer : SymbolPlacer) (sheet : String) (count : ℤ)
    (seed : Nat) (W H : ℚ) (l : List PlacedSymbol)
    (hsz : SheetDimensions.get_size sheet = .ok (W, H))
    (hfit : ∀ e ∈ placer.symbols, e.2.width_mm ≤ W - 2 * MARGIN ∧
      e.2.height_mm ≤ H - 2 * MARGIN)
    (h : place_symbols_randomly placer sheet count seed = .ok l) :
    all_within_bounds MARGIN (W - MARGIN) MARGIN (H - MARGIN) l := by
  obtain ⟨s', att, hw⟩ := place_ok_of_with_state h
  rw [place_symbols_with_state_eq placer count seed hsz] at hw
  have hfit' : ∀ e ∈ placer.symbols, e.2.width_mm ≤ (W - MARGIN) - MARGIN ∧
      e.2.height_mm ≤ (H - MARGIN) - MARGIN := by
    intro e he
    obtain ⟨h1, h2⟩ := hfit e he
    exact ⟨by linarith, by linarith⟩
  exact place_loop_bounds hfit' _ _ _ _ _ _ _
    (fun q hq => absurd hq (List.not_mem_nil q)) hw

/-- C3 witness: the amended bounds theorem applied to a concrete run of
the mock catalog (every mock symbol fits A4) with requested count 0. -/
theorem C3_witness :
    all_within_bounds MARGIN (210 - MARGIN) MARGIN (297 - MARGIN) [] :=
  C3_bounds_amended mockPlacer "A4" 0 0 210 297 [] rfl
    (by
      intro e he
      simp only [mockPlacer, mock_symbols, List.mem_cons, List.not_mem_nil,
        or_false] at he
      rcases he with rfl | rfl | rfl | rfl | rfl | rfl | rfl <;>
        norm_num [MARGIN])
    rfl

end LayoutLab
